import Mathlib

/-!
Verification of the Financial Aggregation & Insurance Reconciliation Engine
of the shammah-client repository, against its natural-language specification.

Monetary values are embedded as exact rationals (`Rat`).  The source passes
JS numbers around; the spec declares the store delivers exact decimal-safe
numbers, so aggregation is embedded in exact arithmetic.  Where the IEEE-754
double semantics of the source is load-bearing — the conservation claim over
the reconciliation allocation — the double arithmetic itself is modelled
(`floatRound`: round to 53 significant bits, ties to even); where it diverges
in another essential way (division by zero producing Infinity/NaN), the
divergence is noted at the theorem.
-/

namespace Shammah

/-- A transaction row as consumed by the reconciliation form submit handler
(`transactionApi.getMonthlyReport` rows).  `insuranceId` is nullable;
`insuranceExpectedAmount` is the coverage field the handler reads through
`Number(x) || 0` (absent or non-numeric modelled as `none`); `actualPaid`
is the reconciled amount, nullable until reconciled. -/
structure MonthlyReportTransaction where
  id : String
  insuranceId : Option String
  insuranceExpectedAmount : Option Rat
  actualPaid : Option Rat
deriving DecidableEq

/-- The state of the actual-paid form field as the submit handler inspects it:
the empty string, a string whose parseFloat is NaN, or a parsed number. -/
inductive AmountInput
  | empty
  | notANumber
  | value (q : Rat)
deriving DecidableEq

/-- Error taxonomy of the reconciliation submit path.  The first four cases
are the toast-error early returns of `InsurancePaymentModal.handleSubmit`,
in source order; `zeroExpectedAmount` is the guard the spec demands in
§4.3 step 2 (the source has no such branch). -/
inductive ReconcileError
  | noInsuranceSelected
  | missingAmount
  | invalidAmount
  | noMatchingTransactions
  | zeroExpectedAmount
deriving DecidableEq

/-- `Number(t.insuranceExpectedAmount) || 0` from the submit handler. -/
def expectedOrZero (t : MonthlyReportTransaction) : Rat :=
  t.insuranceExpectedAmount.getD 0

/-- `reportResponse.data.filter((t) => t.insuranceId === formData.insuranceId)`. -/
def matchedTransactions (insId : String) (txs : List MonthlyReportTransaction) :
    List MonthlyReportTransaction :=
  txs.filter (fun t => t.insuranceId = some insId)

/-- `insuranceTransactions.reduce((sum, t) => sum + (Number(t.insuranceExpectedAmount) || 0), 0)`. -/
def totalExpectedOf (insId : String) (txs : List MonthlyReportTransaction) : Rat :=
  (matchedTransactions insId txs).foldl (fun sum t => sum + expectedOrZero t) 0

/-- The per-transaction updates the handler issues:
`const ratio = actualPaid / totalExpected;` then for each matched transaction
`(Number(t.insuranceExpectedAmount) || 0) * ratio`, keyed by transaction id.
Note the source applies no rounding to the product. -/
def computeAllocations (insId : String) (actualPaid : Rat)
    (txs : List MonthlyReportTransaction) : List (String × Rat) :=
  let ratio := actualPaid / totalExpectedOf insId txs
  (matchedTransactions insId txs).map (fun t => (t.id, expectedOrZero t * ratio))

/-- `InsurancePaymentModal.handleSubmit` (src/unnamed/part_001 lines 456-527),
up to the point where the per-transaction `updateActualPaid` calls are issued:
validation early-returns become errors, and a successful run returns the list
of writes.  The source computes `ratio = actualPaid / totalExpected` with no
zero check; in this exact-rational embedding division by zero yields 0 (in JS
it yields Infinity, and the written products are NaN). -/
def handleSubmit (insId : String) (amountInput : AmountInput)
    (txs : List MonthlyReportTransaction) :
    Except ReconcileError (List (String × Rat)) :=
  if insId = "" then .error .noInsuranceSelected
  else
    match amountInput with
    | .empty => .error .missingAmount
    | .notANumber => .error .invalidAmount
    | .value actualPaid =>
      if actualPaid < 0 then .error .invalidAmount
      else if (matchedTransactions insId txs).length = 0 then
        .error .noMatchingTransactions
      else .ok (computeAllocations insId actualPaid txs)

/-- Round to two decimal places, as the spec prescribes for `newActualPaid`
(§4.3 step 4: `round2(insuranceExpectedAmount * ratio)`).  This is a spec-side
definition: the source applies no rounding. -/
def round2 (q : Rat) : Rat := (round (q * 100) : Int) / 100

/-- Summation helper relating the source's `reduce`-style folds to list sums. -/
theorem foldl_add_eq_sum {α : Type} (f : α → Rat) (l : List α) (init : Rat) :
    l.foldl (fun s t => s + f t) init = init + (l.map f).sum := by
  induction l generalizing init with
  | nil => simp
  | cons a l ih =>
    simp only [List.foldl_cons, List.map_cons, List.sum_cons, ih]
    ring

theorem totalExpectedOf_eq_sum (insId : String) (txs : List MonthlyReportTransaction) :
    totalExpectedOf insId txs = ((matchedTransactions insId txs).map expectedOrZero).sum := by
  simp [totalExpectedOf, foldl_add_eq_sum]

theorem matched_ne_nil_of_total_pos {insId : String} {txs : List MonthlyReportTransaction}
    (hT : 0 < totalExpectedOf insId txs) : (matchedTransactions insId txs).length ≠ 0 := by
  intro h
  rw [List.length_eq_zero] at h
  rw [totalExpectedOf_eq_sum, h] at hT
  simp at hT

/-- **C1 (amended)**: conservation holds only in the exact-arithmetic
idealization: over exact rationals, for a run over transactions of one insurer
whose total expected amount is positive and a received amount R ≥ 0, the
submit handler succeeds and the allocation `expected * (R / total)` sums to
exactly R.  The source computes these values in IEEE-754 double arithmetic
with no rounding or remainder-absorption step, and the sum of the written
doubles can then differ from R — see the C1 counterexample below. -/
theorem reconciliation_conservation (insId : String) (R : Rat)
    (txs : List MonthlyReportTransaction)
    (hid : insId ≠ "") (hR : 0 ≤ R)
    (hT : 0 < totalExpectedOf insId txs) :
    handleSubmit insId (.value R) txs = .ok (computeAllocations insId R txs) ∧
      ((computeAllocations insId R txs).map Prod.snd).sum = R := by
  constructor
  · simp only [handleSubmit, if_neg hid, if_neg (not_lt.mpr hR),
      if_neg (matched_ne_nil_of_total_pos hT)]
  · have hT0 : totalExpectedOf insId txs ≠ 0 := ne_of_gt hT
    simp only [computeAllocations, List.map_map]
    have hcomp : (Prod.snd ∘ fun t => (t.id, expectedOrZero t * (R / totalExpectedOf insId txs)))
        = fun t => expectedOrZero t * (R / totalExpectedOf insId txs) := rfl
    rw [hcomp, List.sum_map_mul_right, ← totalExpectedOf_eq_sum,
      mul_comm, div_mul_cancel₀ _ hT0]

/-- The literal scenario of §8: two transactions with expected coverage 8000
and 4000 for insurer `insX`. -/
def scenarioTxs : List MonthlyReportTransaction :=
  [⟨"t1", some "insX", some 8000, none⟩, ⟨"t2", some "insX", some 4000, none⟩]

/-- Witness for C1 at the spec's literal scenario: R = 9000 over expected
8000 + 4000 is distributed and sums back to 9000. -/
theorem reconciliation_conservation_witness :
    "insX" ≠ "" ∧ (0 : Rat) ≤ 9000 ∧ 0 < totalExpectedOf "insX" scenarioTxs ∧
      (handleSubmit "insX" (.value 9000) scenarioTxs =
          .ok (computeAllocations "insX" 9000 scenarioTxs) ∧
        ((computeAllocations "insX" 9000 scenarioTxs).map Prod.snd).sum = 9000) := by
  have hT : 0 < totalExpectedOf "insX" scenarioTxs := by
    norm_num [totalExpectedOf, matchedTransactions, expectedOrZero, scenarioTxs]
  exact ⟨by decide, by norm_num, hT,
    reconciliation_conservation "insX" 9000 scenarioTxs (by decide) (by norm_num) hT⟩

/-- Three transactions of expected coverage 1 each: with R = 1 the ratio is
1/3 and each computed allocation is the unrounded 1/3. -/
def thirdsTxs : List MonthlyReportTransaction :=
  [⟨"t1", some "i", some 1, none⟩, ⟨"t2", some "i", some 1, none⟩,
    ⟨"t3", some "i", some 1, none⟩]

/-- **C2 counterexample**: the claim `newActualPaid = round2(expected * ratio)`
fails on the code: at three transactions of expected 1 and R = 1 the source
writes the unrounded 1/3 per transaction, while round2 would give 0.33. -/
theorem allocation_not_rounded_counterexample :
    computeAllocations "i" 1 thirdsTxs ≠
      (matchedTransactions "i" thirdsTxs).map
        (fun t => (t.id, round2 (expectedOrZero t * (1 / totalExpectedOf "i" thirdsTxs)))) := by
  norm_num [computeAllocations, matchedTransactions, totalExpectedOf, expectedOrZero,
    thirdsTxs, round2, round_eq]

/-- **C2 (amended)**: each transaction's new actual-paid value is the exact,
unrounded product `expected * (R / total)`; in the literal scenario (expected
8000 and 4000, R = 9000) the allocations are 6000 and 3000, summing to 9000. -/
theorem allocation_proportional (insId : String) (R : Rat)
    (txs : List MonthlyReportTransaction)
    (hid : insId ≠ "") (hR : 0 ≤ R)
    (hT : 0 < totalExpectedOf insId txs) :
    handleSubmit insId (.value R) txs =
        .ok ((matchedTransactions insId txs).map
          (fun t => (t.id, expectedOrZero t * (R / totalExpectedOf insId txs)))) ∧
      computeAllocations "insX" 9000 scenarioTxs = [("t1", 6000), ("t2", 3000)] ∧
      (((computeAllocations "insX" 9000 scenarioTxs).map Prod.snd).sum : Rat) = 9000 := by
  refine ⟨?_,
    by norm_num [computeAllocations, matchedTransactions, totalExpectedOf, expectedOrZero,
      scenarioTxs],
    by norm_num [computeAllocations, matchedTransactions, totalExpectedOf, expectedOrZero,
      scenarioTxs]⟩
  have h := (reconciliation_conservation insId R txs hid hR hT).1
  simpa [computeAllocations] using h

theorem allocation_proportional_witness :
    "insX" ≠ "" ∧ (0 : Rat) ≤ 9000 ∧ 0 < totalExpectedOf "insX" scenarioTxs ∧
      (handleSubmit "insX" (.value 9000) scenarioTxs =
          .ok ((matchedTransactions "insX" scenarioTxs).map
            (fun t => (t.id, expectedOrZero t * (9000 / totalExpectedOf "insX" scenarioTxs)))) ∧
        computeAllocations "insX" 9000 scenarioTxs = [("t1", 6000), ("t2", 3000)] ∧
        (((computeAllocations "insX" 9000 scenarioTxs).map Prod.snd).sum : Rat) = 9000) := by
  have hT : 0 < totalExpectedOf "insX" scenarioTxs := by
    norm_num [totalExpectedOf, matchedTransactions, expectedOrZero, scenarioTxs]
  exact ⟨by decide, by norm_num, hT,
    allocation_proportional "insX" 9000 scenarioTxs (by decide) (by norm_num) hT⟩

/-- A non-empty matched set whose expected amounts are all zero. -/
def zeroExpectedTxs : List MonthlyReportTransaction :=
  [⟨"t1", some "i", some 0, none⟩, ⟨"t2", some "i", some 0, none⟩]

/-- **C3 (code bug)**: the source has no `totalExpected == 0` guard.  With a
non-empty matched set of all-zero expected amounts and a received amount of
9000 the run does not fail with `zeroExpectedAmount`: it succeeds and issues
a write for every matched transaction.  (In JS the ratio is `9000 / 0 =
Infinity` and each written amount is `0 * Infinity = NaN`; in this exact
embedding division by zero yields 0 and the written amounts are 0.  Either
way, writes are performed and no error is raised.) -/
theorem zero_expected_no_guard :
    handleSubmit "i" (.value 9000) zeroExpectedTxs = .ok [("t1", 0), ("t2", 0)] := by
  have h1 : ("i" : String) ≠ "" := by decide
  simp only [handleSubmit, if_neg h1]
  norm_num [computeAllocations, matchedTransactions, totalExpectedOf,
    expectedOrZero, zeroExpectedTxs]

/-- **C6**: when the matched transaction set for the chosen insurer and month
is empty, the submit handler fails with the no-matching-transactions error
before computing or issuing any write. -/
theorem no_matching_transactions_error (insId : String) (R : Rat)
    (txs : List MonthlyReportTransaction) (hid : insId ≠ "") (hR : 0 ≤ R)
    (hempty : matchedTransactions insId txs = []) :
    handleSubmit insId (.value R) txs = .error .noMatchingTransactions := by
  simp [handleSubmit, if_neg hid, not_lt.mpr hR, hempty]

theorem no_matching_transactions_error_witness :
    "i" ≠ "" ∧ (0 : Rat) ≤ 500 ∧
      matchedTransactions "i" [⟨"t1", some "other", some 5, none⟩] = [] ∧
      handleSubmit "i" (.value 500)
          [⟨"t1", some "other", some 5, none⟩] = .error .noMatchingTransactions :=
  ⟨by decide, by norm_num, by decide,
    no_matching_transactions_error "i" 500 [⟨"t1", some "other", some 5, none⟩]
      (by decide) (by norm_num) (by decide)⟩

/-- The effect of one `transactionApi.updateActualPaid(transactionId, amount)`
call on one ledger row.  Modelled from the spec for the store side: §3 says the
reconciliation result is persisted by overwriting the affected transaction's
`insuranceActualPaidAmount`; the client issues the per-transaction PUT. -/
def writeFoldStep (w : String × Rat) (t : MonthlyReportTransaction) :
    MonthlyReportTransaction :=
  if t.id = w.1 then { t with actualPaid := some w.2 } else t

/-- One committed `updateActualPaid` call applied to the whole ledger. -/
def applyWrite (w : String × Rat) (ledger : List MonthlyReportTransaction) :
    List MonthlyReportTransaction :=
  ledger.map (writeFoldStep w)

/-- All writes of a batch committed, in order (the successful
`Promise.all(updatePromises)` case). -/
def applyWritesList (ws : List (String × Rat)) (ledger : List MonthlyReportTransaction) :
    List MonthlyReportTransaction :=
  ws.foldl (fun L w => applyWrite w L) ledger

/-- `Promise.all` over the per-transaction `updateActualPaid` calls when some
calls fail: each PUT is an independent request and commits on its own, so
exactly the calls outside `fails` take effect, whatever the overall promise
reports. -/
def applyBatchWithFailures (fails : String → Bool) (ws : List (String × Rat))
    (ledger : List MonthlyReportTransaction) : List MonthlyReportTransaction :=
  ws.foldl (fun L w => if fails w.1 then L else applyWrite w L) ledger

/-- A ledger of two not-yet-reconciled transactions. -/
def pendingLedger : List MonthlyReportTransaction :=
  [⟨"t1", some "i", some 8000, none⟩, ⟨"t2", some "i", some 4000, none⟩]

/-- **C4 counterexample**: the batch is not all-or-nothing.  With writes for
t1 and t2 of which only the t2 call fails, the resulting ledger has t1
updated and t2 untouched — it equals neither the fully-updated ledger nor
the original one. -/
theorem batch_not_atomic_counterexample :
    applyBatchWithFailures (fun tid => tid == "t2") [("t1", 5), ("t2", 7)] pendingLedger ≠
        applyWritesList [("t1", 5), ("t2", 7)] pendingLedger ∧
      applyBatchWithFailures (fun tid => tid == "t2") [("t1", 5), ("t2", 7)] pendingLedger ≠
        pendingLedger := by
  have h12 : ("t1" : String) ≠ "t2" := by decide
  have h21 : ("t2" : String) ≠ "t1" := by decide
  have hb1 : (("t1" : String) == "t2") = false := by decide
  have hb2 : (("t2" : String) == "t2") = true := by decide
  constructor <;>
    simp [applyBatchWithFailures, applyWritesList, applyWrite, writeFoldStep,
      pendingLedger, h12, h21, hb1, hb2]

/-- **C4 (amended)**: the per-transaction updates are committed independently,
not as an atomic batch: for any pattern of failing calls, exactly the
successful writes are applied, so a partial failure leaves the successfully
written transactions updated and only the failed ones untouched. -/
theorem batch_applies_independent_writes (fails : String → Bool)
    (ws : List (String × Rat)) (ledger : List MonthlyReportTransaction) :
    applyBatchWithFailures fails ws ledger =
      applyWritesList (ws.filter (fun w => !fails w.1)) ledger := by
  induction ws generalizing ledger with
  | nil => rfl
  | cons w ws ih =>
    by_cases h : fails w.1
    · have hL : applyBatchWithFailures fails (w :: ws) ledger
          = applyBatchWithFailures fails ws ledger := by
        rw [applyBatchWithFailures, applyBatchWithFailures, List.foldl_cons, if_pos h]
      have hR : (w :: ws).filter (fun w => !fails w.1) = ws.filter (fun w => !fails w.1) := by
        simp [List.filter_cons, h]
      rw [hL, hR, ih]
    · have hL : applyBatchWithFailures fails (w :: ws) ledger
          = applyBatchWithFailures fails ws (applyWrite w ledger) := by
        rw [applyBatchWithFailures, applyBatchWithFailures, List.foldl_cons, if_neg h]
      have hR : (w :: ws).filter (fun w => !fails w.1)
          = w :: ws.filter (fun w => !fails w.1) := by
        simp [List.filter_cons, h]
      rw [hL, hR, ih, applyWritesList, applyWritesList, List.foldl_cons]

/-- The cumulative effect of a write batch on a single ledger row. -/
def writeFold (ws : List (String × Rat)) (t : MonthlyReportTransaction) :
    MonthlyReportTransaction :=
  ws.foldl (fun t w => writeFoldStep w t) t

/-- The value of the last write of the batch aimed at a given transaction id. -/
def lastWriteValue (ws : List (String × Rat)) (tid : String) : Option Rat :=
  ws.foldl (fun acc w => if tid = w.1 then some w.2 else acc) none

theorem applyWritesList_eq_map (ws : List (String × Rat))
    (ledger : List MonthlyReportTransaction) :
    applyWritesList ws ledger = ledger.map (writeFold ws) := by
  induction ws generalizing ledger with
  | nil =>
    rw [applyWritesList, List.foldl_nil]
    have h : writeFold ([] : List (String × Rat)) = id := rfl
    rw [h, List.map_id]
  | cons w ws ih =>
    simp only [applyWritesList, List.foldl_cons] at ih ⊢
    rw [ih, applyWrite, List.map_map]
    rfl

theorem writeFoldStep_id (w : String × Rat) (t : MonthlyReportTransaction) :
    (writeFoldStep w t).id = t.id := by
  unfold writeFoldStep; split <;> rfl

theorem writeFoldStep_insuranceId (w : String × Rat) (t : MonthlyReportTransaction) :
    (writeFoldStep w t).insuranceId = t.insuranceId := by
  unfold writeFoldStep; split <;> rfl

theorem writeFoldStep_expected (w : String × Rat) (t : MonthlyReportTransaction) :
    (writeFoldStep w t).insuranceExpectedAmount = t.insuranceExpectedAmount := by
  unfold writeFoldStep; split <;> rfl

theorem writeFold_id (ws : List (String × Rat)) (t : MonthlyReportTransaction) :
    (writeFold ws t).id = t.id := by
  induction ws generalizing t with
  | nil => rfl
  | cons w ws ih => rw [writeFold, List.foldl_cons, ← writeFold, ih, writeFoldStep_id]

theorem writeFold_insuranceId (ws : List (String × Rat)) (t : MonthlyReportTransaction) :
    (writeFold ws t).insuranceId = t.insuranceId := by
  induction ws generalizing t with
  | nil => rfl
  | cons w ws ih => rw [writeFold, List.foldl_cons, ← writeFold, ih, writeFoldStep_insuranceId]

theorem writeFold_expected (ws : List (String × Rat)) (t : MonthlyReportTransaction) :
    (writeFold ws t).insuranceExpectedAmount = t.insuranceExpectedAmount := by
  induction ws generalizing t with
  | nil => rfl
  | cons w ws ih => rw [writeFold, List.foldl_cons, ← writeFold, ih, writeFoldStep_expected]

theorem lastWriteValue_foldl (ws : List (String × Rat)) (tid : String) (acc : Option Rat) :
    ws.foldl (fun acc w => if tid = w.1 then some w.2 else acc) acc =
      match lastWriteValue ws tid with
      | some v => some v
      | none => acc := by
  induction ws generalizing acc with
  | nil => rfl
  | cons w ws ih =>
    rw [lastWriteValue, List.foldl_cons, List.foldl_cons, ih, ih]
    by_cases h : tid = w.1
    · rw [if_pos h, if_pos h]
      cases lastWriteValue ws tid <;> rfl
    · rw [if_neg h, if_neg h]
      cases lastWriteValue ws tid <;> rfl

theorem writeFold_char (ws : List (String × Rat)) (t : MonthlyReportTransaction) :
    writeFold ws t = match lastWriteValue ws t.id with
      | some v => { t with actualPaid := some v }
      | none => t := by
  induction ws generalizing t with
  | nil => rfl
  | cons w ws ih =>
    have hs : lastWriteValue (w :: ws) t.id
        = ws.foldl (fun acc v => if t.id = v.1 then some v.2 else acc)
            (if t.id = w.1 then some w.2 else none) := rfl
    rw [writeFold, List.foldl_cons, ← writeFold, ih, writeFoldStep_id,
      writeFoldStep_insuranceId, writeFoldStep_expected, hs, lastWriteValue_foldl]
    by_cases h : t.id = w.1
    · simp only [writeFoldStep, if_pos h]
      cases lastWriteValue ws t.id <;> rfl
    · simp only [writeFoldStep, if_neg h]
      cases lastWriteValue ws t.id <;> rfl

theorem writeFold_writeFold (ws : List (String × Rat)) (t : MonthlyReportTransaction) :
    writeFold ws (writeFold ws t) = writeFold ws t := by
  have h2 := writeFold_char ws (writeFold ws t)
  rw [writeFold_id] at h2
  rw [h2, writeFold_char ws t]
  cases lastWriteValue ws t.id <;> rfl

theorem filter_map_comm (p : MonthlyReportTransaction → Bool)
    (f : MonthlyReportTransaction → MonthlyReportTransaction)
    (hf : ∀ a, p (f a) = p a) (l : List MonthlyReportTransaction) :
    (l.map f).filter p = (l.filter p).map f := by
  induction l with
  | nil => rfl
  | cons a l ih =>
    rw [List.map_cons, List.filter_cons, List.filter_cons, hf a]
    cases p a <;> simp [ih]

theorem matched_applyWritesList (insId : String) (ws : List (String × Rat))
    (ledger : List MonthlyReportTransaction) :
    matchedTransactions insId (applyWritesList ws ledger) =
      (matchedTransactions insId ledger).map (writeFold ws) := by
  rw [applyWritesList_eq_map, matchedTransactions, matchedTransactions]
  exact filter_map_comm _ _ (fun t => by rw [writeFold_insuranceId]) ledger

theorem totalExpected_applyWritesList (insId : String) (ws : List (String × Rat))
    (ledger : List MonthlyReportTransaction) :
    totalExpectedOf insId (applyWritesList ws ledger) = totalExpectedOf insId ledger := by
  rw [totalExpectedOf_eq_sum, totalExpectedOf_eq_sum, matched_applyWritesList, List.map_map]
  congr 1
  apply List.map_congr_left
  intro t ht
  simp [Function.comp, expectedOrZero, writeFold_expected]

theorem computeAllocations_applyWritesList (insId : String) (R : Rat)
    (ws : List (String × Rat)) (ledger : List MonthlyReportTransaction) :
    computeAllocations insId R (applyWritesList ws ledger) =
      computeAllocations insId R ledger := by
  simp only [computeAllocations, matched_applyWritesList, totalExpected_applyWritesList,
    List.map_map]
  apply List.map_congr_left
  intro t ht
  simp [Function.comp, expectedOrZero, writeFold_expected, writeFold_id]

/-- One reconciliation run: the submit handler followed by committing its
write batch against the ledger it was computed from. -/
def reconcileRun (insId : String) (amountInput : AmountInput)
    (ledger : List MonthlyReportTransaction) :
    Except ReconcileError (List MonthlyReportTransaction) :=
  (handleSubmit insId amountInput ledger).map (fun ws => applyWritesList ws ledger)

/-- **C5** Idempotence: a reconciliation run over a ledger with positive
total expected amount succeeds, and re-running it with identical inputs on
the resulting ledger succeeds and returns that ledger unchanged — the second
run recomputes the same allocation from the untouched expected amounts and
overwrites each actual-paid value with the value it already has. -/
theorem reconciliation_idempotent (insId : String) (R : Rat)
    (ledger : List MonthlyReportTransaction)
    (hid : insId ≠ "") (hR : 0 ≤ R)
    (hT : 0 < totalExpectedOf insId ledger) :
    reconcileRun insId (.value R) ledger =
        .ok (applyWritesList (computeAllocations insId R ledger) ledger) ∧
      reconcileRun insId (.value R)
          (applyWritesList (computeAllocations insId R ledger) ledger) =
        .ok (applyWritesList (computeAllocations insId R ledger) ledger) := by
  have h1 := (reconciliation_conservation insId R ledger hid hR hT).1
  constructor
  · rw [reconcileRun, h1]; rfl
  · have hT2 : 0 < totalExpectedOf insId
        (applyWritesList (computeAllocations insId R ledger) ledger) := by
      rw [totalExpected_applyWritesList]; exact hT
    have h2 := (reconciliation_conservation insId R _ hid hR hT2).1
    rw [reconcileRun, h2, computeAllocations_applyWritesList]
    simp only [Except.map]
    have h3 : applyWritesList (computeAllocations insId R ledger)
        (applyWritesList (computeAllocations insId R ledger) ledger) =
        applyWritesList (computeAllocations insId R ledger) ledger := by
      rw [applyWritesList_eq_map, applyWritesList_eq_map, List.map_map]
      apply List.map_congr_left
      intro t _
      exact writeFold_writeFold _ t
    rw [h3]

theorem reconciliation_idempotent_witness :
    "insX" ≠ "" ∧ (0 : Rat) ≤ 9000 ∧ 0 < totalExpectedOf "insX" scenarioTxs ∧
      (reconcileRun "insX" (.value 9000) scenarioTxs =
          .ok (applyWritesList (computeAllocations "insX" 9000 scenarioTxs) scenarioTxs) ∧
        reconcileRun "insX" (.value 9000)
            (applyWritesList (computeAllocations "insX" 9000 scenarioTxs) scenarioTxs) =
          .ok (applyWritesList (computeAllocations "insX" 9000 scenarioTxs) scenarioTxs)) := by
  have hT : 0 < totalExpectedOf "insX" scenarioTxs := by
    norm_num [totalExpectedOf, matchedTransactions, expectedOrZero, scenarioTxs]
  exact ⟨by decide, by norm_num, hT,
    reconciliation_idempotent "insX" 9000 scenarioTxs (by decide) (by norm_num) hT⟩

/-- Per-insurer slice of a monthly range report (`IInsurance` in the pdf api). -/
structure IInsurance where
  name : String
  amount : Rat
  patients : Nat
deriving DecidableEq

/-- Mobile-money totals of one report month (`IMomo`). -/
structure IMomo where
  patients : Nat
  totalAmount : Rat
deriving DecidableEq

/-- Cash totals of one report month (`ICash`). -/
structure ICash where
  patients : Nat
  totalAmount : Rat
deriving DecidableEq

/-- One month's report row as returned by `pdfApi.getRangeReports` (`IReport`);
`month` is the period key string of the form `"YYYY-MonthName"`. -/
structure IReport where
  month : String
  insurances : List IInsurance
  totalMomo : IMomo
  totalcash : ICash
  totalMomoAndCash : Rat
  grossTotal : Rat
  totalMomoAndInsuranceAndCash : Rat
  totalExpense : Rat
deriving DecidableEq

/-- `report.insurances.reduce((sum, ins) => sum + ins.amount, 0)`. -/
def totalInsuranceOf (r : IReport) : Rat :=
  r.insurances.foldl (fun sum i => sum + i.amount) 0

/-- `totalRevenue = report.totalMomo.totalAmount + totalInsurance + report.totalcash.totalAmount`. -/
def totalRevenueOf (r : IReport) : Rat :=
  r.totalMomo.totalAmount + totalInsuranceOf r + r.totalcash.totalAmount

/-- `netProfit = totalRevenue - report.totalExpense`. -/
def netProfitOf (r : IReport) : Rat :=
  totalRevenueOf r - r.totalExpense

/-- `[...reports].sort((a, b) => a.month.localeCompare(b.month))`: the rows
rendered in period-key order (JS `sort` is stable; `localeCompare` is the
string order). -/
def sortedReports (reports : List IReport) : List IReport :=
  List.insertionSort (fun a b => a.month ≤ b.month) reports

/-- `reports.reduce((sum, r) => sum + r.totalMomo.totalAmount, 0)`. -/
def grandTotalMomo (reports : List IReport) : Rat :=
  reports.foldl (fun sum r => sum + r.totalMomo.totalAmount) 0

/-- `reports.reduce((sum, r) => sum + r.totalcash.totalAmount, 0)`. -/
def grandTotalCash (reports : List IReport) : Rat :=
  reports.foldl (fun sum r => sum + r.totalcash.totalAmount) 0

/-- `reports.reduce((sum, r) => sum + r.insurances.reduce((s, i) => s + i.amount, 0), 0)`. -/
def grandTotalInsurance (reports : List IReport) : Rat :=
  reports.foldl (fun sum r => sum + totalInsuranceOf r) 0

/-- `grandTotalRevenue = grandTotalMomo + grandTotalInsurance + grandTotalCash`. -/
def grandTotalRevenue (reports : List IReport) : Rat :=
  grandTotalMomo reports + grandTotalInsurance reports + grandTotalCash reports

/-- `reports.reduce((sum, r) => sum + r.totalExpense, 0)`. -/
def grandTotalExpenses (reports : List IReport) : Rat :=
  reports.foldl (fun sum r => sum + r.totalExpense) 0

/-- `grandNetProfit = grandTotalRevenue - grandTotalExpenses`. -/
def grandNetProfit (reports : List IReport) : Rat :=
  grandTotalRevenue reports - grandTotalExpenses reports

instance : IsTotal IReport (fun a b => a.month ≤ b.month) :=
  ⟨fun a b => le_total a.month b.month⟩

instance : IsTrans IReport (fun a b => a.month ≤ b.month) :=
  ⟨fun _ _ _ hab hbc => le_trans hab hbc⟩

theorem sum_map_sub {α : Type} (f g : α → Rat) (l : List α) :
    (l.map fun i => f i - g i).sum = (l.map f).sum - (l.map g).sum := by
  induction l with
  | nil => simp
  | cons a l ih => simp [ih]; ring

theorem sum_map_sortedReports (f : IReport → Rat) (reports : List IReport) :
    ((sortedReports reports).map f).sum = (reports.map f).sum :=
  ((List.perm_insertionSort _ reports).map f).sum_eq

theorem grand_foldl_eq (f : IReport → Rat) (reports : List IReport) :
    reports.foldl (fun sum r => sum + f r) 0 = ((sortedReports reports).map f).sum := by
  rw [foldl_add_eq_sum, zero_add, sum_map_sortedReports]

theorem grandTotalRevenue_eq (reports : List IReport) :
    grandTotalRevenue reports = ((sortedReports reports).map totalRevenueOf).sum := by
  have hmap : List.map totalRevenueOf (sortedReports reports)
      = List.map (fun r : IReport =>
          (r.totalMomo.totalAmount + totalInsuranceOf r) + r.totalcash.totalAmount)
        (sortedReports reports) := rfl
  rw [grandTotalRevenue, grandTotalMomo, grandTotalInsurance, grandTotalCash,
    grand_foldl_eq, grand_foldl_eq, grand_foldl_eq, hmap, List.sum_map_add, List.sum_map_add]

theorem grandNetProfit_eq (reports : List IReport) :
    grandNetProfit reports = ((sortedReports reports).map netProfitOf).sum := by
  have hmap : List.map netProfitOf (sortedReports reports)
      = List.map (fun r : IReport => totalRevenueOf r - r.totalExpense)
        (sortedReports reports) := rfl
  rw [grandNetProfit, grandTotalRevenue_eq, grandTotalExpenses, grand_foldl_eq, hmap,
    sum_map_sub]

/-- **C8** Report table: the rendered rows are the reports sorted ascending by
the period-key string; each row's total revenue is the sum of its cash,
mobile-money and insurance components and its net profit is that revenue minus
the row's expenses; and every grand-total field is the field-wise sum of the
rendered rows. -/
theorem report_table_correct (reports : List IReport) :
    List.Sorted (· ≤ ·) ((sortedReports reports).map IReport.month) ∧
      (∀ r ∈ sortedReports reports,
        totalRevenueOf r =
            r.totalcash.totalAmount + r.totalMomo.totalAmount + totalInsuranceOf r ∧
          netProfitOf r = totalRevenueOf r - r.totalExpense) ∧
      grandTotalMomo reports =
        ((sortedReports reports).map (fun r => r.totalMomo.totalAmount)).sum ∧
      grandTotalCash reports =
        ((sortedReports reports).map (fun r => r.totalcash.totalAmount)).sum ∧
      grandTotalInsurance reports = ((sortedReports reports).map totalInsuranceOf).sum ∧
      grandTotalRevenue reports = ((sortedReports reports).map totalRevenueOf).sum ∧
      grandTotalExpenses reports =
        ((sortedReports reports).map (fun r => r.totalExpense)).sum ∧
      grandNetProfit reports = ((sortedReports reports).map netProfitOf).sum := by
  refine ⟨?_, ?_, grand_foldl_eq _ reports, grand_foldl_eq _ reports,
    grand_foldl_eq _ reports, ?_, grand_foldl_eq _ reports, ?_⟩
  · exact List.pairwise_map.mpr
      (List.sorted_insertionSort (fun a b : IReport => a.month ≤ b.month) reports)
  · intro r _
    exact ⟨by rw [totalRevenueOf]; ring, rfl⟩
  · exact grandTotalRevenue_eq reports
  · exact grandNetProfit_eq reports

/-- One row of the insurance payment tracking report
(`InsurancePaymentRecord` in src/unnamed/part_007). -/
structure InsurancePaymentRecord where
  insuranceId : String
  insuranceName : String
  month : String
  monthDisplay : String
  peopleReceived : Nat
  expectedAmount : Rat
  actualPaidAmount : Rat
deriving DecidableEq

/-- The displayed per-record difference:
`record.actualPaidAmount === 0 ? 0 : record.expectedAmount - record.actualPaidAmount`. -/
def recordDifference (r : InsurancePaymentRecord) : Rat :=
  if r.actualPaidAmount = 0 then 0 else r.expectedAmount - r.actualPaidAmount

/-- The Net Difference total:
`filteredRecords.reduce((sum, record) => sum + recordDifference, 0)` with the
same zero-actual special case inlined. -/
def totalDifference (records : List InsurancePaymentRecord) : Rat :=
  records.foldl (fun sum r => sum + recordDifference r) 0

/-- **C10**: a record with actual-paid exactly 0 displays a difference of 0
(not expected − 0); the Net Difference total is the sum of the per-record
differences; hence prepending an unreconciled record leaves the total
unchanged. -/
theorem unreconciled_zero_difference (records : List InsurancePaymentRecord)
    (r : InsurancePaymentRecord) :
    (r.actualPaidAmount = 0 → recordDifference r = 0) ∧
      totalDifference records = (records.map recordDifference).sum ∧
      (r.actualPaidAmount = 0 → totalDifference (r :: records) = totalDifference records) := by
  refine ⟨fun h => by simp [recordDifference, h], ?_, fun h => ?_⟩
  · rw [totalDifference, foldl_add_eq_sum, zero_add]
  · have h0 : recordDifference r = 0 := by simp [recordDifference, h]
    rw [totalDifference, totalDifference, List.foldl_cons, h0, add_zero]

/-- May 2024 for insurer Alpha is expected 1200 but not yet reconciled. -/
def sampleUnreconciled : InsurancePaymentRecord :=
  ⟨"i1", "Alpha", "2024-05", "May 2024", 3, 1200, 0⟩

/-- June 2024 for insurer Alpha was reconciled at 400 of 500 expected. -/
def sampleReconciled : InsurancePaymentRecord :=
  ⟨"i1", "Alpha", "2024-06", "June 2024", 2, 500, 400⟩

theorem unreconciled_zero_difference_witness :
    sampleUnreconciled.actualPaidAmount = 0 ∧
      recordDifference sampleUnreconciled = 0 ∧
      totalDifference [sampleReconciled] = ([sampleReconciled].map recordDifference).sum ∧
      totalDifference (sampleUnreconciled :: [sampleReconciled]) =
        totalDifference [sampleReconciled] := by
  have h := unreconciled_zero_difference [sampleReconciled] sampleUnreconciled
  have h0 : sampleUnreconciled.actualPaidAmount = 0 := rfl
  exact ⟨h0, h.1 h0, h.2.1, h.2.2 h0⟩

/-- A monetary value as delivered by the external store to the dashboard:
a string (with `parsedFloat` modelling the result of JS `parseFloat`, `none`
when NaN), a plain number, or absent (null/undefined). -/
inductive StoreValue
  | str (parsedFloat : Option Rat)
  | num (q : Rat)
  | absent
deriving DecidableEq

/-- `Dashboard.fetchStats` normalization of a store money field:
`typeof x === "string" ? parseFloat(x) : x || 0` followed by
`isNaN(v) ? 0 : v`.  Every input yields a number; nothing ever fails. -/
def fetchStatsAmount : StoreValue → Rat
  | .str (some q) => q
  | .str none => 0
  | .num q => q
  | .absent => 0

/-- Modelled from the spec: the Money parse step of §4.1, which must fail
with `InvalidAmount` on non-numeric or NaN input.  No such step exists in the
source; this is the spec-side contract the code is compared against. -/
def moneyParseSpec : StoreValue → Except ReconcileError Rat
  | .str (some q) => .ok q
  | .str none => .error .invalidAmount
  | .num q => .ok q
  | .absent => .error .invalidAmount

/-- **C9 counterexample**: a non-numeric string from the store is silently
coerced to 0 by the dashboard normalization, while the claim requires the
parse step to fail with `InvalidAmount` there. -/
theorem store_parse_coerces_counterexample :
    fetchStatsAmount (.str none) = 0 ∧
      moneyParseSpec (.str none) = .error .invalidAmount :=
  ⟨rfl, rfl⟩

/-- **C9 (amended)**: store-delivered monetary values are never run through a
failing parse: the dashboard coerces a parsed string to its value or 0 on
NaN, reconciliation coerces the store's expected amount with
`Number(x) || 0`; only the user-entered actual-paid form input is validated,
failing when non-numeric or negative. -/
theorem store_values_coerced :
    (∀ p : Option Rat, fetchStatsAmount (.str p) = p.getD 0) ∧
      (∀ t : MonthlyReportTransaction, expectedOrZero t = t.insuranceExpectedAmount.getD 0) ∧
      (∀ (insId : String) (txs : List MonthlyReportTransaction), insId ≠ "" →
        handleSubmit insId .notANumber txs = .error .invalidAmount) ∧
      (∀ (insId : String) (R : Rat) (txs : List MonthlyReportTransaction),
        insId ≠ "" → R < 0 → handleSubmit insId (.value R) txs = .error .invalidAmount) := by
  refine ⟨fun p => ?_, fun t => rfl, fun insId txs h => ?_, fun insId R txs h hR => ?_⟩
  · cases p <;> rfl
  · simp [handleSubmit, h]
  · simp [handleSubmit, h, if_pos hR]

theorem store_values_coerced_witness :
    fetchStatsAmount (.str (some 25)) = (some (25 : Rat)).getD 0 ∧
      expectedOrZero ⟨"t1", some "i", none, none⟩ = (none : Option Rat).getD 0 ∧
      ("i" ≠ "" ∧ handleSubmit "i" .notANumber [] = .error .invalidAmount) ∧
      ("i" ≠ "" ∧ (-5 : Rat) < 0 ∧
        handleSubmit "i" (.value (-5)) [] = .error .invalidAmount) := by
  have h := store_values_coerced
  exact ⟨h.1 (some 25), h.2.1 _, ⟨by decide, h.2.2.1 "i" [] (by decide)⟩,
    ⟨by decide, by norm_num, h.2.2.2 "i" (-5) [] (by decide) (by norm_num)⟩⟩

/-- `MONTH_NAMES` from `Dashboard.tsx`. -/
def MONTH_NAMES : List String :=
  ["January", "February", "March", "April", "May", "June", "July", "August",
    "September", "October", "November", "December"]

/-- One transaction of the chart year as the annual distribution sees it:
its calendar month (1-12), its insurer's display name and its expected
coverage amount. -/
structure AnnualTxn where
  monthIndex : Nat
  insurerName : String
  expectedAmount : Rat
deriving DecidableEq

/-- JS object property access on a string-keyed record. -/
def assocLookup {β : Type} (key : String) : List (String × β) → Option β
  | [] => none
  | (k, v) :: rest => if k = key then some v else assocLookup key rest

/-- Add an amount to an insurer's running sum in a string-keyed record. -/
def addInsurerAmount (acc : List (String × Rat)) (name : String) (amount : Rat) :
    List (String × Rat) :=
  match acc with
  | [] => [(name, amount)]
  | (k, v) :: rest =>
    if k = name then (k, v + amount) :: rest
    else (k, v) :: addInsurerAmount rest name amount

/-- Per-insurer sums of expected coverage over one month's transactions. -/
def insurerSums (txs : List AnnualTxn) : List (String × Rat) :=
  txs.foldl (fun acc t => addInsurerAmount acc t.insurerName t.expectedAmount) []

/-- Modelled from the spec: the annual chart the dashboard endpoint returns
(`dashboardApi.getCards(year).data.chart`), whose computation lives in the
backend, not in this repository.  Per §4.5 it is keyed by month name, includes
only months with at least one transaction, and each month maps insurer display
name to the summed expected coverage of that month. -/
def buildAnnualChart (txs : List AnnualTxn) : List (String × List (String × Rat)) :=
  (List.range 12).filterMap (fun i =>
    if (txs.filter (fun t => t.monthIndex = i + 1)).isEmpty then none
    else some (MONTH_NAMES.getD i "",
      insurerSums (txs.filter (fun t => t.monthIndex = i + 1))))

/-- The set of insurer names of the chart
(`allInsuranceNames` collected month by month, then `Array.from(...).sort`). -/
def insuranceKeysOf (chart : List (String × List (String × Rat))) : List String :=
  List.insertionSort (· ≤ ·) ((chart.map (fun m => m.2.map Prod.fst)).flatten.dedup)

/-- `MONTH_NAMES.findIndex((m) => m.toLowerCase() === a.toLowerCase())`. -/
def monthIndexOf (s : String) : Nat :=
  MONTH_NAMES.findIdx (fun m => m.toLower = s.toLower)

/-- `Object.keys(chartDataFromApi).sort(...)`: the chart's month keys sorted
by their index in `MONTH_NAMES`. -/
def monthsWithDataOf (chart : List (String × List (String × Rat))) : List String :=
  List.insertionSort (fun a b => monthIndexOf a ≤ monthIndexOf b) (chart.map Prod.fst)

/-- One row of the rendered annual chart data. -/
structure ChartRow where
  month : String
  cells : List (String × Rat)
deriving DecidableEq

/-- The `chartData` transformation of `Dashboard.fetchAnnualChart`
(src/src/_root/pages/Dashboard.tsx lines 241-250): one row per month with
data, the month name upper-cased, and one cell per sorted insurer key with
`monthData[name] || 0`. -/
def annualChartRows (chart : List (String × List (String × Rat))) : List ChartRow :=
  (monthsWithDataOf chart).map (fun m =>
    { month := m.toUpper,
      cells := (insuranceKeysOf chart).map (fun name =>
        (name, (assocLookup name ((assocLookup m chart).getD [])).getD 0)) })

theorem mem_keys_addInsurerAmount (acc : List (String × Rat)) (name : String)
    (amount : Rat) (k : String) :
    k ∈ (addInsurerAmount acc name amount).map Prod.fst ↔
      k ∈ acc.map Prod.fst ∨ k = name := by
  induction acc with
  | nil => simp [addInsurerAmount]
  | cons p rest ih =>
    obtain ⟨pk, pv⟩ := p
    by_cases h : pk = name <;> simp [addInsurerAmount, h, ih] <;> tauto

theorem mem_keys_insurerSums_aux (l : List AnnualTxn) (acc : List (String × Rat))
    (k : String) :
    k ∈ ((l.foldl (fun acc t => addInsurerAmount acc t.insurerName t.expectedAmount)
        acc).map Prod.fst) ↔
      k ∈ acc.map Prod.fst ∨ k ∈ l.map AnnualTxn.insurerName := by
  induction l generalizing acc with
  | nil => simp
  | cons t l ih =>
    rw [List.foldl_cons, ih, mem_keys_addInsurerAmount]
    simp
    tauto

theorem mem_keys_insurerSums (l : List AnnualTxn) (k : String) :
    k ∈ (insurerSums l).map Prod.fst ↔ k ∈ l.map AnnualTxn.insurerName := by
  rw [insurerSums, mem_keys_insurerSums_aux]
  simp

theorem assocLookup_addInsurerAmount_ne (acc : List (String × Rat)) (name : String)
    (amount : Rat) (k : String) (h : k ≠ name) :
    assocLookup k (addInsurerAmount acc name amount) = assocLookup k acc := by
  induction acc with
  | nil => simp [addInsurerAmount, assocLookup, Ne.symm h]
  | cons p rest ih =>
    obtain ⟨pk, pv⟩ := p
    by_cases hp : pk = name
    · subst hp
      have hk : pk ≠ k := fun hh => h (hh.symm ▸ rfl)
      simp [addInsurerAmount, assocLookup, hk]
    · by_cases hk : pk = k <;> simp [addInsurerAmount, hp, assocLookup, hk, ih, h]

theorem assocLookup_insurerSums_aux (l : List AnnualTxn) (acc : List (String × Rat))
    (k : String) (h : k ∉ l.map AnnualTxn.insurerName) :
    assocLookup k
        (l.foldl (fun acc t => addInsurerAmount acc t.insurerName t.expectedAmount) acc) =
      assocLookup k acc := by
  induction l generalizing acc with
  | nil => rfl
  | cons t l ih =>
    simp only [List.map_cons, List.mem_cons, not_or] at h
    rw [List.foldl_cons, ih _ h.2, assocLookup_addInsurerAmount_ne _ _ _ _ h.1]

theorem assocLookup_insurerSums_none (l : List AnnualTxn) (k : String)
    (h : k ∉ l.map AnnualTxn.insurerName) :
    assocLookup k (insurerSums l) = none := by
  rw [insurerSums, assocLookup_insurerSums_aux _ _ _ h]
  rfl

theorem assocLookup_filterMap {β : Type} (key : String) (v : β)
    (f : Nat → Option (String × β)) (i : Nat) :
    ∀ l : List Nat, i ∈ l → f i = some (key, v) →
      (∀ j ∈ l, ∀ p, f j = some p → p.1 = key → j = i) →
      assocLookup key (l.filterMap f) = some v := by
  intro l
  induction l with
  | nil => intro h; cases h
  | cons j l ih =>
    intro hmem hf huniq
    rw [List.filterMap_cons]
    cases hj : f j with
    | none =>
      have hij : i ≠ j := fun hh => by rw [hh, hj] at hf; cases hf
      have hmem2 : i ∈ l := by
        cases List.mem_cons.mp hmem with
        | inl hh => exact absurd hh hij
        | inr hh => exact hh
      exact ih hmem2 hf (fun j2 hj2 p hp hk => huniq j2 (List.mem_cons_of_mem _ hj2) p hp hk)
    | some p =>
      by_cases hk : p.1 = key
      · have hji : j = i := huniq j (List.mem_cons_self j l) p hj hk
        rw [hji, hf] at hj
        obtain ⟨pk, pv⟩ := p
        cases hj
        simp [assocLookup]
      · obtain ⟨pk, pv⟩ := p
        have hmem2 : i ∈ l := by
          rcases List.mem_cons.mp hmem with hh | hh
          · exfalso
            rw [hh, hj] at hf
            simp only [Option.some.injEq, Prod.mk.injEq] at hf
            exact hk hf.1
          · exact hh
        simp only [assocLookup, if_neg hk]
        exact ih hmem2 hf
          (fun j2 hj2 p2 hp2 hk2 => huniq j2 (List.mem_cons_of_mem _ hj2) p2 hp2 hk2)

theorem month_names_inj :
    ∀ i, i < 12 → ∀ j, j < 12 → MONTH_NAMES.getD i "" = MONTH_NAMES.getD j "" → i = j := by
  decide

theorem mem_buildAnnualChart (txs : List AnnualTxn) (p : String × List (String × Rat)) :
    p ∈ buildAnnualChart txs ↔
      ∃ j, j < 12 ∧ txs.filter (fun t => t.monthIndex = j + 1) ≠ [] ∧
        p = (MONTH_NAMES.getD j "",
          insurerSums (txs.filter (fun t => t.monthIndex = j + 1))) := by
  rw [buildAnnualChart, List.mem_filterMap]
  constructor
  · rintro ⟨j, hj, hfj⟩
    rw [List.mem_range] at hj
    by_cases hne : (txs.filter (fun t => t.monthIndex = j + 1)).isEmpty
    · rw [if_pos hne] at hfj
      cases hfj
    · rw [if_neg hne] at hfj
      refine ⟨j, hj, ?_, (Option.some.inj hfj).symm⟩
      intro hnil
      exact hne (by rw [hnil]; rfl)
  · rintro ⟨j, hj, hne, hp⟩
    refine ⟨j, List.mem_range.mpr hj, ?_⟩
    have hne2 : (txs.filter (fun t => t.monthIndex = j + 1)).isEmpty = false := by
      cases he : (txs.filter (fun t => t.monthIndex = j + 1)).isEmpty
      · rfl
      · exact absurd (List.isEmpty_iff.mp he) hne
    rw [hne2]
    simp [hp]

theorem mem_monthsWithDataOf (txs : List AnnualTxn) (i : Nat) (hi : i < 12) :
    MONTH_NAMES.getD i "" ∈ monthsWithDataOf (buildAnnualChart txs) ↔
      txs.filter (fun t => t.monthIndex = i + 1) ≠ [] := by
  rw [monthsWithDataOf, List.mem_insertionSort, List.mem_map]
  constructor
  · rintro ⟨p, hp, hpeq⟩
    obtain ⟨j, hj, hne, rfl⟩ := (mem_buildAnnualChart txs p).mp hp
    have hji := month_names_inj j hj i hi hpeq
    rwa [hji] at hne
  · intro hne
    exact ⟨(MONTH_NAMES.getD i "",
        insurerSums (txs.filter (fun t => t.monthIndex = i + 1))),
      (mem_buildAnnualChart txs _).mpr ⟨i, hi, hne, rfl⟩, rfl⟩

theorem mem_insuranceKeysOf (chart : List (String × List (String × Rat))) (name : String) :
    name ∈ insuranceKeysOf chart ↔ ∃ p ∈ chart, name ∈ p.2.map Prod.fst := by
  rw [insuranceKeysOf, List.mem_insertionSort, List.mem_dedup, List.mem_flatten]
  constructor
  · rintro ⟨l, hl, hmem⟩
    obtain ⟨p, hp, rfl⟩ := List.mem_map.mp hl
    exact ⟨p, hp, hmem⟩
  · rintro ⟨p, hp, hmem⟩
    exact ⟨p.2.map Prod.fst, List.mem_map.mpr ⟨p, hp, rfl⟩, hmem⟩

theorem assocLookup_buildAnnualChart (txs : List AnnualTxn) (i : Nat) (hi : i < 12)
    (hne : txs.filter (fun t => t.monthIndex = i + 1) ≠ []) :
    assocLookup (MONTH_NAMES.getD i "") (buildAnnualChart txs) =
      some (insurerSums (txs.filter (fun t => t.monthIndex = i + 1))) := by
  rw [buildAnnualChart]
  apply assocLookup_filterMap _ _ _ i _ (List.mem_range.mpr hi)
  · have hne2 : (txs.filter (fun t => t.monthIndex = i + 1)).isEmpty = false := by
      cases he : (txs.filter (fun t => t.monthIndex = i + 1)).isEmpty
      · rfl
      · exact absurd (List.isEmpty_iff.mp he) hne
    rw [hne2]
    simp
  · intro j hj p hp hk
    rw [List.mem_range] at hj
    by_cases hje : (txs.filter (fun t => t.monthIndex = j + 1)).isEmpty
    · rw [if_pos hje] at hp
      cases hp
    · rw [if_neg hje] at hp
      have hp1 : p.1 = MONTH_NAMES.getD j "" := by
        rw [← Option.some.inj hp]
      rw [hp1] at hk
      exact month_names_inj j hj i hi hk

/-- **C7** Annual distribution table: a row exists exactly for months with at
least one transaction (backend chart modelled from the spec, client transform
from the source); the insurer column set is the union of the insurer names
over all included months, sorted; each row carries one cell per column; and an
insurer with no activity in an included month gets the cell value 0. -/
theorem annual_distribution_correct (txs : List AnnualTxn) :
    (annualChartRows (buildAnnualChart txs)).map ChartRow.month
        = (monthsWithDataOf (buildAnnualChart txs)).map String.toUpper ∧
      (∀ i, i < 12 →
        (MONTH_NAMES.getD i "" ∈ monthsWithDataOf (buildAnnualChart txs) ↔
          txs.filter (fun t => t.monthIndex = i + 1) ≠ [])) ∧
      List.Sorted (· ≤ ·) (insuranceKeysOf (buildAnnualChart txs)) ∧
      (∀ name, name ∈ insuranceKeysOf (buildAnnualChart txs) ↔
        ∃ i, i < 12 ∧
          name ∈ (txs.filter (fun t => t.monthIndex = i + 1)).map AnnualTxn.insurerName) ∧
      (∀ row ∈ annualChartRows (buildAnnualChart txs),
        row.cells.map Prod.fst = insuranceKeysOf (buildAnnualChart txs)) ∧
      (∀ i, i < 12 → txs.filter (fun t => t.monthIndex = i + 1) ≠ [] →
        ∀ name ∈ insuranceKeysOf (buildAnnualChart txs),
          name ∉ (txs.filter (fun t => t.monthIndex = i + 1)).map AnnualTxn.insurerName →
          ∃ row ∈ annualChartRows (buildAnnualChart txs),
            row.month = (MONTH_NAMES.getD i "").toUpper ∧ (name, (0 : Rat)) ∈ row.cells) := by
  refine ⟨?_, fun i hi => mem_monthsWithDataOf txs i hi, ?_, ?_, ?_, ?_⟩
  · rw [annualChartRows, List.map_map]
    rfl
  · exact List.sorted_insertionSort _ _
  · intro name
    rw [mem_insuranceKeysOf]
    constructor
    · rintro ⟨p, hp, hmem⟩
      obtain ⟨j, hj, hne, rfl⟩ := (mem_buildAnnualChart txs p).mp hp
      rw [mem_keys_insurerSums] at hmem
      exact ⟨j, hj, hmem⟩
    · rintro ⟨i, hi, hmem⟩
      have hne : txs.filter (fun t => t.monthIndex = i + 1) ≠ [] := by
        intro hnil
        rw [hnil] at hmem
        cases hmem
      refine ⟨(MONTH_NAMES.getD i "",
          insurerSums (txs.filter (fun t => t.monthIndex = i + 1))),
        (mem_buildAnnualChart txs _).mpr ⟨i, hi, hne, rfl⟩, ?_⟩
      rw [mem_keys_insurerSums]
      exact hmem
  · intro row hrow
    rw [annualChartRows] at hrow
    obtain ⟨m, hm, rfl⟩ := List.mem_map.mp hrow
    rw [List.map_map]
    have hcomp : (Prod.fst ∘ fun name =>
        (name, (assocLookup name ((assocLookup m (buildAnnualChart txs)).getD [])).getD 0))
        = id := rfl
    rw [hcomp, List.map_id]
  · intro i hi hne name hname hnoact
    have hmonth : MONTH_NAMES.getD i "" ∈ monthsWithDataOf (buildAnnualChart txs) :=
      (mem_monthsWithDataOf txs i hi).mpr hne
    refine ⟨_, List.mem_map.mpr ⟨MONTH_NAMES.getD i "", hmonth, rfl⟩, rfl, ?_⟩
    have hval : (assocLookup name
        ((assocLookup (MONTH_NAMES.getD i "") (buildAnnualChart txs)).getD [])).getD 0
        = (0 : Rat) := by
      rw [assocLookup_buildAnnualChart txs i hi hne, Option.getD_some,
        assocLookup_insurerSums_none _ _ hnoact, Option.getD_none]
    exact List.mem_map.mpr ⟨name, hname, by rw [hval]⟩

/-- January has transactions for insurers Beta and Alpha; March only for
Alpha. -/
def sampleAnnualTxs : List AnnualTxn :=
  [⟨1, "Beta", 100⟩, ⟨1, "Alpha", 50⟩, ⟨3, "Alpha", 70⟩]

theorem annual_distribution_correct_witness :
    2 < 12 ∧
      sampleAnnualTxs.filter (fun t => t.monthIndex = 2 + 1) ≠ [] ∧
      "Beta" ∈ insuranceKeysOf (buildAnnualChart sampleAnnualTxs) ∧
      "Beta" ∉
        (sampleAnnualTxs.filter (fun t => t.monthIndex = 2 + 1)).map AnnualTxn.insurerName ∧
      ∃ row ∈ annualChartRows (buildAnnualChart sampleAnnualTxs),
        row.month = (MONTH_NAMES.getD 2 "").toUpper ∧ ("Beta", (0 : Rat)) ∈ row.cells := by
  obtain ⟨hmap, hmonths, hsorted, hunion, hcols, hcells⟩ :=
    annual_distribution_correct sampleAnnualTxs
  have h3 : "Beta" ∈ insuranceKeysOf (buildAnnualChart sampleAnnualTxs) :=
    (hunion "Beta").mpr ⟨0, by norm_num, by decide⟩
  exact ⟨by norm_num, by decide, h3, by decide,
    hcells 2 (by norm_num) (by decide) "Beta" h3 (by decide)⟩

/-- Round a rational to the nearest integer, ties to even — the rounding step
of binary64 arithmetic. -/
def roundTiesEven (q : Rat) : Int :=
  if q - ⌊q⌋ < 1 / 2 then ⌊q⌋
  else if 1 / 2 < q - ⌊q⌋ then ⌊q⌋ + 1
  else if ⌊q⌋ % 2 = 0 then ⌊q⌋ else ⌊q⌋ + 1

/-- The binary64 (JS number) value nearest a rational: round to 53 significant
bits, ties to even.  This models IEEE-754 double rounding for normal finite
magnitudes (overflow to infinity and subnormal underflow are outside the range
exercised here and are not modelled; division by zero is handled at the use
site). -/
def floatRound (q : Rat) : Rat :=
  if q = 0 then 0
  else if q < 0 then
    -(roundTiesEven (-q / 2 ^ (Int.log 2 (-q) - 52)) * 2 ^ (Int.log 2 (-q) - 52))
  else roundTiesEven (q / 2 ^ (Int.log 2 q - 52)) * 2 ^ (Int.log 2 q - 52)

/-- JS `+` on finite doubles: exact sum, then binary64 rounding. -/
def dAdd (x y : Rat) : Rat := floatRound (x + y)

/-- JS `*` on finite doubles: exact product, then binary64 rounding. -/
def dMul (x y : Rat) : Rat := floatRound (x * y)

/-- JS `/` on finite doubles: exact quotient, then binary64 rounding. -/
def dDiv (x y : Rat) : Rat := floatRound (x / y)

/-- `totalExpected` of the submit handler under the source's double
arithmetic: the reduce accumulates with JS `+`. -/
def totalExpectedOfFP (insId : String) (txs : List MonthlyReportTransaction) : Rat :=
  (matchedTransactions insId txs).foldl (fun sum t => dAdd sum (expectedOrZero t)) 0

/-- The write amounts of the submit handler under the source's double
arithmetic: `ratio = actualPaid / totalExpected` and
`expected * ratio`, each operation rounded to binary64. -/
def computeAllocationsFP (insId : String) (actualPaid : Rat)
    (txs : List MonthlyReportTransaction) : List (String × Rat) :=
  let ratio := dDiv actualPaid (totalExpectedOfFP insId txs)
  (matchedTransactions insId txs).map (fun t => (t.id, dMul (expectedOrZero t) ratio))

/-- `InsurancePaymentModal.handleSubmit` with its arithmetic interpreted as
IEEE-754 double operations (`handleSubmit` is the same control flow over exact
rationals); comparisons on finite doubles coincide with rational comparisons. -/
def handleSubmitFP (insId : String) (amountInput : AmountInput)
    (txs : List MonthlyReportTransaction) :
    Except ReconcileError (List (String × Rat)) :=
  if insId = "" then .error .noInsuranceSelected
  else
    match amountInput with
    | .empty => .error .missingAmount
    | .notANumber => .error .invalidAmount
    | .value actualPaid =>
      if actualPaid < 0 then .error .invalidAmount
      else if (matchedTransactions insId txs).length = 0 then
        .error .noMatchingTransactions
      else .ok (computeAllocationsFP insId actualPaid txs)

theorem int_log_eq_of (q : Rat) (e : Int) (hq : 0 < q)
    (h1 : (2 : Rat) ^ e ≤ q) (h2 : q < (2 : Rat) ^ (e + 1)) : Int.log 2 q = e := by
  have hcast : ((2 : Nat) : Rat) = (2 : Rat) := by norm_num
  have hb : (1 : Nat) < 2 := by norm_num
  have hle : e ≤ Int.log 2 q := by
    have hmono := Int.log_mono_right (b := 2)
      (zpow_pos (by norm_num : (0 : Rat) < 2) e) h1
    rwa [← hcast, Int.log_zpow hb] at hmono
  have hge : Int.log 2 q ≤ e := by
    by_contra hlt
    push_neg at hlt
    have h3 : e + 1 ≤ Int.log 2 q := hlt
    have h4 : (2 : Rat) ^ (e + 1) ≤ (2 : Rat) ^ (Int.log 2 q) := by
      apply zpow_le_zpow_right₀ (by norm_num) h3
    have h5 : ((2 : Nat) : Rat) ^ (Int.log 2 q) ≤ q := Int.zpow_log_le_self hb hq
    rw [hcast] at h5
    exact absurd (lt_of_lt_of_le h2 (le_trans h4 h5)) (lt_irrefl q)
  omega

theorem floatRound_pos_eq (q : Rat) (e : Int) (hq : 0 < q)
    (h1 : (2 : Rat) ^ e ≤ q) (h2 : q < (2 : Rat) ^ (e + 1)) :
    floatRound q = roundTiesEven (q / 2 ^ (e - 52)) * 2 ^ (e - 52) := by
  rw [floatRound, if_neg (ne_of_gt hq), if_neg (not_lt.mpr (le_of_lt hq)),
    int_log_eq_of q e hq h1 h2]

theorem roundTiesEven_int (n : Int) : roundTiesEven (n : Rat) = n := by
  rw [roundTiesEven, Int.floor_intCast]
  norm_num

theorem roundTiesEven_of_floor_lt (q : Rat) (n : Int) (hf : ⌊q⌋ = n)
    (h : q - n < 1 / 2) : roundTiesEven q = n := by
  rw [roundTiesEven, hf, if_pos h]

/-- A rational of the form m·2^(e-52) with 2^e ≤ q < 2^(e+1) is exactly
representable in binary64 and survives rounding unchanged. -/
theorem floatRound_exact (q : Rat) (m e : Int) (hq : 0 < q)
    (h1 : (2 : Rat) ^ e ≤ q) (h2 : q < (2 : Rat) ^ (e + 1))
    (hm : q = (m : Rat) * 2 ^ (e - 52)) :
    floatRound q = q := by
  rw [floatRound_pos_eq q e hq h1 h2]
  have hz : ((2 : Rat) ^ (e - 52)) ≠ 0 := zpow_ne_zero _ (by norm_num)
  have hdiv : q / 2 ^ (e - 52) = (m : Rat) := by
    rw [hm, mul_div_assoc, div_self hz, mul_one]
  rw [hdiv, roundTiesEven_int, ← hm]

theorem floatRound_one : floatRound 1 = 1 :=
  floatRound_exact 1 4503599627370496 0 (by norm_num) (by norm_num) (by norm_num)
    (by norm_num [zpow_sub₀])

theorem floatRound_two : floatRound 2 = 2 :=
  floatRound_exact 2 4503599627370496 1 (by norm_num) (by norm_num) (by norm_num)
    (by norm_num [zpow_sub₀])

theorem floatRound_three : floatRound 3 = 3 :=
  floatRound_exact 3 6755399441055744 1 (by norm_num) (by norm_num) (by norm_num)
    (by norm_num [zpow_sub₀])

/-- The binary64 value nearest 1/3 is 6004799503160661·2⁻⁵⁴; it is itself
exactly representable. -/
theorem floatRound_nearestThird :
    floatRound (6004799503160661 / 2 ^ 54) = 6004799503160661 / 2 ^ 54 :=
  floatRound_exact _ 6004799503160661 (-2) (by norm_num) (by norm_num) (by norm_num)
    (by norm_num [zpow_sub₀])

/-- JS `1 / 3` rounds to 6004799503160661·2⁻⁵⁴ (the fraction 1/3 below the
midpoint, so rounding is downward). -/
theorem floatRound_oneThird : floatRound (1 / 3) = 6004799503160661 / 2 ^ 54 := by
  rw [floatRound_pos_eq (1 / 3) (-2) (by norm_num) (by norm_num) (by norm_num)]
  have hdiv : (1 / 3 : Rat) / 2 ^ ((-2 : Int) - 52) = 18014398509481984 / 3 := by
    norm_num [zpow_sub₀]
  have hfloor : ⌊(18014398509481984 / 3 : Rat)⌋ = 6004799503160661 := by
    rw [Int.floor_eq_iff]
    constructor <;> norm_num
  have hround : roundTiesEven ((18014398509481984 : Rat) / 3) = 6004799503160661 :=
    roundTiesEven_of_floor_lt _ _ hfloor (by norm_num)
  rw [hdiv, hround]
  norm_num [zpow_sub₀]

/-- **C1 counterexample**: under the source's IEEE-754 double arithmetic,
reconciling three transactions of expected 1 with R = 1 (a non-empty set with
positive total expected and R ≥ 0) writes 6004799503160661·2⁻⁵⁴ — the double
nearest 1/3 — to each transaction, and the written values sum to
18014398509481983·2⁻⁵⁴ ≠ 1: the source has no rounding or remainder-absorption
step, so `Σ newActualPaid = R` fails on the program. -/
theorem fp_conservation_counterexample :
    (0 : Rat) < totalExpectedOfFP "i" thirdsTxs ∧
      handleSubmitFP "i" (.value 1) thirdsTxs =
        .ok [("t1", 6004799503160661 / 2 ^ 54), ("t2", 6004799503160661 / 2 ^ 54),
          ("t3", 6004799503160661 / 2 ^ 54)] ∧
      ((computeAllocationsFP "i" 1 thirdsTxs).map Prod.snd).sum ≠ 1 := by
  have ht : totalExpectedOfFP "i" thirdsTxs = 3 := by
    norm_num [totalExpectedOfFP, matchedTransactions, thirdsTxs, expectedOrZero, dAdd,
      floatRound_one, floatRound_two, floatRound_three]
  have hd : dDiv 1 (totalExpectedOfFP "i" thirdsTxs) = 6004799503160661 / 2 ^ 54 := by
    rw [dDiv, ht, floatRound_oneThird]
  have hm : dMul 1 (6004799503160661 / 2 ^ 54) = 6004799503160661 / 2 ^ 54 := by
    rw [dMul, one_mul, floatRound_nearestThird]
  have hmatched : matchedTransactions "i" thirdsTxs = thirdsTxs := by
    norm_num [matchedTransactions, thirdsTxs]
  have halloc : computeAllocationsFP "i" 1 thirdsTxs
      = [("t1", 6004799503160661 / 2 ^ 54), ("t2", 6004799503160661 / 2 ^ 54),
        ("t3", 6004799503160661 / 2 ^ 54)] := by
    simp only [computeAllocationsFP, hmatched, hd]
    simp only [thirdsTxs, List.map_cons, List.map_nil, expectedOrZero, Option.getD_some, hm]
  refine ⟨by rw [ht]; norm_num, ?_, ?_⟩
  · have h1 : ("i" : String) ≠ "" := by decide
    simp only [handleSubmitFP, if_neg h1]
    rw [if_neg (by norm_num : ¬((1 : Rat) < 0)), hmatched,
      if_neg (by norm_num [thirdsTxs] : ¬(thirdsTxs.length = 0)), halloc]
  · rw [halloc]
    norm_num

end Shammah
